import Mathlib

/-!
Verification of the Twitch-Plays-Chess move-voting core.

Shallow embedding of `src/bots/botChess.py` and `src/bots/botHandler.py`.
Conventions of the embedding:

* Python dicts (which preserve insertion order) are modelled as association
  lists with unique keys; dict assignment replaces the value in place,
  otherwise appends at the end.
* Vote-dictionary keys in the source are either plain Python strings or
  `chess.Move` objects returned by `board.parse_san` (a `chess.Move` never
  compares equal to a string, so the two live side by side as distinct dict
  keys).  They are modelled by the two-constructor type `VoteKey`, a
  `moveObj` carrying the move's coordinate (UCI) form.
* Python float division in the resignation test is modelled by exact
  rational division (the operands are small vote counts, where IEEE
  division and the exact ratio order the same way against 0.1's rounding).
* External calls (Lichess API `make_move`, the ongoing-game fetch, the
  `chess` library's `parse_san`) are oracles passed in as parameters;
  an exception raised by the external call is the oracle answering
  `none` / `false`.
* A Python exception escaping a function is modelled with `Except`.
-/

namespace TPC

/-- A key of the per-game vote dictionary: a raw Python string, or a
`chess.Move` object (identified by its coordinate form) as returned by
`board.parse_san`.  Mirrors Python equality: a `Move` never equals a
string, so `moveObj s ≠ str s`. -/
inductive VoteKey where
  | str : String → VoteKey
  | moveObj : String → VoteKey
deriving DecidableEq

/-- The vote dictionary of one game: candidate ↦ tally, in insertion
order (`BotChess.game_move_votes[game_id]`). -/
def VoteRound := List (VoteKey × Nat)

instance : DecidableEq VoteRound := by
  unfold VoteRound
  infer_instance

/-- `BotChess.RESIGN_MOVE_STR`. -/
def RESIGN_MOVE_STR : String := "resign"

/-- `BotChess.MIN_RESIGN_VOTES`. -/
def MIN_RESIGN_VOTES : Nat := 1

/-- `BotChess.MIN_RESIGN_PERCENTAGE_VOTES` (the float 0.1, modelled
exactly). -/
def MIN_RESIGN_PERCENTAGE_VOTES : ℚ := 1 / 10

/-- The key list of a vote dictionary (`list(d.keys())`). -/
def keysOf (votes : VoteRound) : List VoteKey :=
  votes.map Prod.fst

/-- Dictionary lookup with default 0 (a key that is present was stored
with its tally; an absent candidate has no votes). -/
def countOf : VoteRound → VoteKey → Nat
  | [], _ => 0
  | p :: rest, k => if p.1 = k then p.2 else countOf rest k

/-- Total of all tallies (`sum([d[m] for m in moves])`). -/
def totalVotes (votes : VoteRound) : Nat :=
  (votes.map Prod.snd).sum

/-- Tally of the resignation token (0 if absent). -/
def resignVotes (votes : VoteRound) : Nat :=
  countOf votes (VoteKey.str RESIGN_MOVE_STR)

/-- `d[k] += 1` with creation at 0 if absent (botChess.py lines 337-344
and 282-290). -/
def incrVote : VoteRound → VoteKey → VoteRound
  | [], k => [(k, 1)]
  | p :: rest, k => if p.1 = k then (p.1, p.2 + 1) :: rest else p :: incrVote rest k

/-- `del d[k]` (botChess.py line 199); dict keys are unique, so deleting
the key drops its single entry. -/
def eraseVote : VoteRound → VoteKey → VoteRound
  | [], _ => []
  | p :: rest, k => if p.1 = k then eraseVote rest k else p :: eraseVote rest k

/-- The resignation test of botChess.py lines 164-179: only performed when
the resignation token is among the keys; `and` short-circuits, so the
division is never reached with a zero total. -/
def resignCheck (votes : VoteRound) : Bool :=
  if VoteKey.str RESIGN_MOVE_STR ∈ keysOf votes then
    decide (MIN_RESIGN_VOTES ≤ totalVotes votes) &&
      decide (MIN_RESIGN_PERCENTAGE_VOTES ≤ (resignVotes votes : ℚ) / (totalVotes votes : ℚ))
  else false

/-- Observable outcome of one iteration of the loop body of
`BotChess.thread_make_move_handler` (botChess.py lines 153-205) on a
drained vote round. -/
structure ArbiterResult where
  /-- `resign_game` was called (line 179). -/
  resigned : Bool
  /-- The candidate passed to `make_move` (line 194), if any. -/
  submitted : Option VoteKey
  /-- The game's vote dictionary after the iteration. -/
  votes : VoteRound
  /-- `bot_handler.reset_users_voted_moves` was called (line 205). -/
  votersReset : Bool
deriving DecidableEq

/-- One iteration of the loop body of `BotChess.thread_make_move_handler`
(botChess.py lines 153-205).  `mk` is the outcome of the external
`make_move` call (`false` = the Lichess API raised).  An empty vote
dictionary `continue`s before anything happens; the lone-resignation
`continue` (line 191) skips both `make_move` and the voted-users reset. -/
def arbiterStep (mode : String) (mk : VoteKey → Bool) (votes : VoteRound) : ArbiterResult :=
  match votes with
  | [] => ⟨false, none, votes, false⟩
  | p :: rest =>
    let resigned := resignCheck (p :: rest)
    if mode = "anarchy" then
      if p.1 = VoteKey.str RESIGN_MOVE_STR then
        match rest with
        | [] => ⟨resigned, none, p :: rest, false⟩
        | q :: rest2 =>
          ⟨resigned, some q.1,
            if mk q.1 then [] else eraseVote (p :: q :: rest2) q.1, true⟩
      else
        ⟨resigned, some p.1,
          if mk p.1 then [] else eraseVote (p :: rest) p.1, true⟩
    else
      ⟨resigned, none, p :: rest, true⟩

/-- First key of the drained dictionary that is not the resignation
token. -/
def firstNonResign (votes : VoteRound) : Option VoteKey :=
  (keysOf votes).find? (fun k => decide (k ≠ VoteKey.str RESIGN_MOVE_STR))

/-! ### GameRegistry: `BotChess.update_ongoing_games` and readers -/

/-- An ongoing game as returned by the hosting client; only its id is
relevant to the cached set (`game["gameId"]`). -/
structure Game where
  gameId : String
deriving DecidableEq

/-- Python dict assignment `d[k] = v`: replaces the value in place if the
key exists, otherwise appends. -/
def dictInsert : List (String × Game) → String → Game → List (String × Game)
  | [], k, v => [(k, v)]
  | p :: rest, k, v => if p.1 = k then (k, v) :: rest else p :: dictInsert rest k v

/-- `BotChess.update_ongoing_games` (botChess.py lines 436-454): on fetch
failure (`none`) the previous snapshot is kept; on success the dict is
emptied and repopulated from the fetched list. -/
def update_ongoing_games (fetch : Option (List Game)) (cur : List (String × Game)) :
    List (String × Game) :=
  match fetch with
  | none => cur
  | some games => games.foldl (fun d g => dictInsert d g.gameId g) []

/-- `BotChess.get_ongoing_game_ids` (botChess.py lines 533-541). -/
def get_ongoing_game_ids (d : List (String × Game)) : List String :=
  d.map Prod.fst

/-! ### ChallengeGatekeeper: `BotChess.validate_challenge_event` -/

/-- The fields of a Lichess event that the gatekeeper inspects. -/
structure ChallengeEvent where
  etype : String
  rated : Bool
deriving DecidableEq

/-- The decision taken on a challenge event. -/
inductive ChallengeDecision where
  | accept
  | decline
deriving DecidableEq

/-- `BotChess.validate_challenge_event` (botChess.py lines 235-255): a
fresh `update_ongoing_games` runs first, then the occupancy and rating
checks. -/
def validate_challenge_event (fetch : Option (List Game)) (cur : List (String × Game))
    (ev : ChallengeEvent) : Bool :=
  let games := update_ongoing_games fetch cur
  decide (games.length = 0) && (decide (ev.etype = "challenge") && !ev.rated)

/-- `BotChess.treat_incoming_event` (botChess.py lines 212-233): only
challenge events produce a decision. -/
def treat_incoming_event (fetch : Option (List Game)) (cur : List (String × Game))
    (ev : ChallengeEvent) : Option ChallengeDecision :=
  if ev.etype = "challenge" then
    some (if validate_challenge_event fetch cur ev then .accept else .decline)
  else none

/-! ### Move-format validation: `get_is_uci`, `chess.SAN_REGEX`,
`get_is_move_fmt_valid` -/

/-- The characters matched by `[a-h]`. -/
def fileChars : List Char := ['a', 'b', 'c', 'd', 'e', 'f', 'g', 'h']

/-- The characters matched by `[1-8]`. -/
def rankChars : List Char := ['1', '2', '3', '4', '5', '6', '7', '8']

/-- The characters matched by `[NBKRQ]` (SAN piece letters). -/
def sanPieceChars : List Char := ['N', 'B', 'K', 'R', 'Q']

/-- The characters matched by `[nbrqkNBRQK]` (promotion letters). -/
def promoChars : List Char := ['n', 'b', 'r', 'q', 'k', 'N', 'B', 'R', 'Q', 'K']

/-- `BotChess.get_is_uci` (botChess.py lines 604-613):
`UCI_PATTERN.match(move)` anchors only at the start, so any string whose
FIRST FOUR characters match `[a-h][1-8][a-h][1-8]` counts as UCI,
regardless of what follows. -/
def get_is_uci (mv : String) : Bool :=
  match mv.toList with
  | a :: b :: c :: d :: _ =>
    decide (a ∈ fileChars) && decide (b ∈ rankChars) &&
      decide (c ∈ fileChars) && decide (d ∈ rankChars)
  | _ => false

/-- Backtracking step for one optional character class of a regex: the
possible remainders after consuming zero or one character from `cs`. -/
def optChar (cs : List Char) (s : List Char) : List (List Char) :=
  match s with
  | [] => [[]]
  | c :: r => if c ∈ cs then [c :: r, r] else [c :: r]

/-- The mandatory `[a-h][1-8]` target square of `chess.SAN_REGEX`. -/
def reqSquare (s : List Char) : List (List Char) :=
  match s with
  | a :: b :: r => if a ∈ fileChars ∧ b ∈ rankChars then [r] else []
  | _ => []

/-- The optional promotion group `(=?[nbrqkNBRQK])?` of
`chess.SAN_REGEX`: nothing, a piece letter, or `=` plus a piece letter. -/
def optPromo (s : List Char) : List (List Char) :=
  let one := match s with
    | c :: r => if c ∈ promoChars then [r] else []
    | [] => []
  let eq := match s with
    | '=' :: c :: r => if c ∈ promoChars then [r] else []
    | _ => []
  s :: (one ++ eq)

/-- Full-string match of `chess.SAN_REGEX`,
`^([NBKRQ])?([a-h])?([1-8])?[\-x]?([a-h][1-8])(=?[nbrqkNBRQK])?[\+#]?\Z`,
as a backtracking matcher over remainder lists (castling is not matched,
as the source comment at botChess.py line 431 notes). -/
def sanMatch (mv : String) : Bool :=
  (optChar sanPieceChars mv.toList).any (fun r1 =>
    (optChar fileChars r1).any (fun r2 =>
      (optChar rankChars r2).any (fun r3 =>
        (optChar ['-', 'x'] r3).any (fun r4 =>
          (reqSquare r4).any (fun r5 =>
            (optPromo r5).any (fun r6 =>
              (optChar ['+', '#'] r6).any (fun r7 => r7.isEmpty)))))))

/-- `BotChess.get_is_move_fmt_valid` (botChess.py lines 418-434). -/
def get_is_move_fmt_valid (mv : String) : Bool :=
  get_is_uci mv || sanMatch mv

/-! ### The vote map keyed by game id (`BotChess.game_move_votes`) -/

/-- The per-game vote round for `g` — an absent entry behaves as the
empty dict, matching the lazy creation in the source. -/
def gameVotes : List (String × VoteRound) → String → VoteRound
  | [], _ => []
  | p :: rest, g => if p.1 = g then p.2 else gameVotes rest g

/-- Dict assignment `game_move_votes[g] = vr`. -/
def setGameVotes : List (String × VoteRound) → String → VoteRound → List (String × VoteRound)
  | [], g, vr => [(g, vr)]
  | p :: rest, g, vr => if p.1 = g then (g, vr) :: rest else p :: setGameVotes rest g vr

/-- `BotChess.vote_for_resign` (botChess.py lines 272-294): creates the
game dict and the resignation entry as needed, then increments; always
succeeds. -/
def vote_for_resign (m : List (String × VoteRound)) (g : String) :
    List (String × VoteRound) :=
  setGameVotes m g (incrVote (gameVotes m g) (VoteKey.str RESIGN_MOVE_STR))

/-- `BotChess.vote_for_move` (botChess.py lines 296-347).  `boards g` is
the board oracle for game `g`: `none` models `get_board_from_game`
returning `None` (the subsequent `board.parse_san` raises and the except
clause returns `False`); `some parse` models a board whose `parse_san`
either raises (`none`) or returns a `chess.Move` object with the given
coordinate form.  Note the SAN branch stores the parse RESULT — a move
object, not the input string — as the dict key. -/
def vote_for_move (boards : String → Option (String → Option String))
    (m : List (String × VoteRound)) (g mv : String) :
    Bool × List (String × VoteRound) :=
  if !(get_is_move_fmt_valid mv) then (false, m)
  else if get_is_uci mv then
    (true, setGameVotes m g (incrVote (gameVotes m g) (VoteKey.str mv)))
  else
    match boards g with
    | none => (false, m)
    | some parse =>
      match parse mv with
      | none => (false, m)
      | some u => (true, setGameVotes m g (incrVote (gameVotes m g) (VoteKey.moveObj u)))

/-! ### ChatIngestCoordinator: `BotHandler` state and message handling -/

/-- The shared mutable state that one chat message touches:
`BotHandler.game_ids`, `BotHandler.users_already_voted` and
`BotChess.game_move_votes`. -/
structure HandlerState where
  game_ids : List String
  users_already_voted : List (String × List String)
  game_move_votes : List (String × VoteRound)
deriving DecidableEq

/-- Dict lookup in `users_already_voted`. -/
def uavFind : List (String × List String) → String → Option (List String)
  | [], _ => none
  | p :: rest, g => if p.1 = g then some p.2 else uavFind rest g

/-- Dict assignment in `users_already_voted`. -/
def uavSet : List (String × List String) → String → List String → List (String × List String)
  | [], g, l => [(g, l)]
  | p :: rest, g, l => if p.1 = g then (p.1, l) :: rest else p :: uavSet rest g l

/-- `BotHandler.get_has_user_already_voted` (botHandler.py lines 185-194). -/
def get_has_user_already_voted (st : HandlerState) (g u : String) : Bool :=
  match uavFind st.users_already_voted g with
  | none => false
  | some l => decide (u ∈ l)

/-- `BotHandler.set_user_as_already_voted` (botHandler.py lines 174-183). -/
def set_user_as_already_voted (st : HandlerState) (g u : String) : HandlerState :=
  match uavFind st.users_already_voted g with
  | none => { st with users_already_voted := uavSet st.users_already_voted g [u] }
  | some l =>
    if u ∈ l then st
    else { st with users_already_voted := uavSet st.users_already_voted g (l ++ [u]) }

/-- `BotHandler.reset_users_voted_moves` (botHandler.py lines 168-172):
a no-op when the game has no voted-users list yet, else empties it. -/
def reset_users_voted_moves (st : HandlerState) (g : String) : HandlerState :=
  match uavFind st.users_already_voted g with
  | none => st
  | some _ => { st with users_already_voted := uavSet st.users_already_voted g [] }

/-- `BotHandler.treat_move_msg` (botHandler.py lines 124-144): drop if no
game; drop if the user already voted in the first game; else vote, and
mark the user only when the vote succeeded. -/
def treat_move_msg (boards : String → Option (String → Option String))
    (st : HandlerState) (mv u : String) : HandlerState :=
  match st.game_ids with
  | [] => st
  | g :: _ =>
    if get_has_user_already_voted st g u then st
    else
      let r := vote_for_move boards st.game_move_votes g mv
      if r.1 then set_user_as_already_voted { st with game_move_votes := r.2 } g u
      else { st with game_move_votes := r.2 }

/-- `BotHandler.treat_command` (botHandler.py lines 146-166): the parsed
command dict has a single key; `!resign` votes (unconditionally — the
already-voted flag is never consulted) and then marks the user;
`!challenge` is inert. -/
def treat_command (st : HandlerState) (command : String × Option String) (u : String) :
    HandlerState :=
  if command.1 = "!resign" then
    match st.game_ids with
    | [] => st
    | g :: _ =>
      set_user_as_already_voted
        { st with game_move_votes := vote_for_resign st.game_move_votes g } g u
  else st

/-- Tally of the resignation token in game `g`'s round. -/
def resignCountIn (st : HandlerState) (g : String) : Nat :=
  countOf (gameVotes st.game_move_votes g) (VoteKey.str RESIGN_MOVE_STR)

/-! ### Chat-line parsing: `get_command_from_msg`, `get_move_from_msg` -/

/-- `BotHandler.MSG_COMMANDS`. -/
def MSG_COMMANDS : List String := ["!resign", "!challenge"]

/-- Python `msg.split(" ")`: split at every single space; never returns
an empty list. -/
def splitOnSpace : List Char → List (List Char)
  | [] => [[]]
  | c :: rest =>
    match splitOnSpace rest with
    | [] => [[]]
    | w :: ws => if c = ' ' then [] :: w :: ws else (c :: w) :: ws

/-- `BotHandler.get_command_from_msg` (botHandler.py lines 266-277) on the
message's character list.  `msg[0]` on the empty string raises
`IndexError` — modelled as `Except.error`.  The `len(parse_msg) == 0`
guard in the source is dead code (`split` never returns an empty list)
but is mirrored anyway. -/
def get_command_from_chars (l : List Char) : Except String (Option (String × Option String)) :=
  match l with
  | [] => Except.error "IndexError"
  | c :: _ =>
    if c ≠ '!' then Except.ok none
    else
      match splitOnSpace l with
      | [] => Except.ok none
      | w :: ws =>
        match MSG_COMMANDS.find? (fun cmd => decide (String.mk w = cmd)) with
        | some cmd =>
          Except.ok (some (cmd, match ws with | [] => none | a :: _ => some (String.mk a)))
        | none => Except.ok none

/-- `BotHandler.get_command_from_msg` on a string. -/
def get_command_from_msg (msg : String) : Except String (Option (String × Option String)) :=
  get_command_from_chars msg.toList

/-- A character of the class `[a-zA-Z0-9#+!?\-]`. -/
def moveWordChar (c : Char) : Bool :=
  c.isAlpha || c.isDigit || c = '#' || c = '+' || c = '!' || c = '?' || c = '-'

/-- First maximal run of `moveWordChar`s, as found by
`re.findall(r"[a-zA-Z0-9#+!?\-]+", message)[0]`. -/
def firstWordRun : List Char → Option (List Char)
  | [] => none
  | c :: rest =>
    if moveWordChar c then some (c :: rest.takeWhile moveWordChar)
    else firstWordRun rest

/-- First occurrence of the four-character pattern `[a-h][1-8][a-h][1-8]`
anywhere in the text, as found by `re.findall` with `uci=True`. -/
def scanUci : List Char → Option (List Char)
  | a :: b :: c :: d :: rest =>
    if decide (a ∈ fileChars) && decide (b ∈ rankChars) &&
        decide (c ∈ fileChars) && decide (d ∈ rankChars) then
      some [a, b, c, d]
    else scanUci (b :: c :: d :: rest)
  | _ => none

/-- `BotChess.get_move_from_msg` (botChess.py lines 366-394): messages
containing a space carry no move; otherwise the first regex match is the
move. -/
def get_move_from_msg (msg : String) (uci : Bool := false) : Option String :=
  if ' ' ∈ msg.toList then none
  else if uci then (scanUci msg.toList).map String.mk
  else (firstWordRun msg.toList).map String.mk

/-- Handling of one chat message by `BotHandler.thread_twitch_chat`
(botHandler.py lines 75-88): command parsing first (a raised exception
propagates and kills the thread), then move extraction and vote
dispatch. -/
def process_message (boards : String → Option (String → Option String))
    (st : HandlerState) (u msg : String) : Except String HandlerState :=
  match get_command_from_msg msg with
  | Except.error e => Except.error e
  | Except.ok (some cmd) => Except.ok (treat_command st cmd u)
  | Except.ok none =>
    match get_move_from_msg msg with
    | none => Except.ok st
    | some mv => Except.ok (treat_move_msg boards st mv u)

/-! ### Concrete fixtures used for witnesses and counterexamples -/

/-- A handler state with one active game "g" in which user "u" has
already voted this round. -/
def sampleStateC2 : HandlerState :=
  ⟨["g"], [("g", ["u"])], []⟩

/-- The board oracle used for the C9 scenario: `parse_san` resolves the
abbreviated text "e4" to the move object with coordinate form "e2e4" and
rejects everything else. -/
def parseOracleE4 : String → Option String :=
  fun mvt => if mvt = "e4" then some "e2e4" else none

/-- A board environment offering `parseOracleE4` for every game. -/
def sanBoards : String → Option (String → Option String) :=
  fun _ => some parseOracleE4

/-! ### Spec-side predicate (for comparison only) -/

/-- Modelled from the spec's words for C7: a text that "matches the
4-character coordinate-move pattern `[a-h][1-8][a-h][1-8]`" read as an
exact (whole-string) match. -/
def coordMove4 (s : String) : Bool :=
  match s.toList with
  | [a, b, c, d] =>
    decide (a ∈ fileChars) && decide (b ∈ rankChars) &&
      decide (c ∈ fileChars) && decide (d ∈ rankChars)
  | _ => false

/-! ## Theorems -/

theorem arbiterStep_resigned (mode : String) (mk : VoteKey → Bool) (votes : VoteRound) :
    (arbiterStep mode mk votes).resigned = resignCheck votes := by
  cases votes with
  | nil => simp [arbiterStep, resignCheck, keysOf]
  | cons p rest =>
    rcases rest with _ | ⟨q, rest2⟩ <;>
      (simp only [arbiterStep]; split_ifs <;> rfl)

theorem countOf_eq_zero_of_not_mem (votes : VoteRound) (k : VoteKey)
    (h : k ∉ keysOf votes) : countOf votes k = 0 := by
  induction votes with
  | nil => rfl
  | cons p rest ih =>
    simp only [keysOf, List.map_cons, List.mem_cons, not_or] at h
    simp only [countOf]
    rw [if_neg (fun hh => h.1 hh.symm)]
    exact ih (by simpa [keysOf] using h.2)

theorem resignCheck_iff (votes : VoteRound) :
    resignCheck votes = true ↔
      MIN_RESIGN_VOTES ≤ totalVotes votes ∧ totalVotes votes ≤ 10 * resignVotes votes := by
  unfold resignCheck
  split_ifs with hmem
  · rw [Bool.and_eq_true, decide_eq_true_iff, decide_eq_true_iff]
    refine and_congr_right fun htot => ?_
    have hpos : (0 : ℚ) < (totalVotes votes : ℚ) := by
      have : 0 < totalVotes votes := lt_of_lt_of_le one_pos htot
      exact_mod_cast this
    rw [MIN_RESIGN_PERCENTAGE_VOTES, div_le_div_iff₀ (by norm_num) hpos]
    rw [show ((1 : ℚ) * totalVotes votes = (totalVotes votes : ℚ)) from one_mul _]
    constructor
    · intro h
      exact_mod_cast (by linarith : (totalVotes votes : ℚ) ≤ 10 * resignVotes votes)
    · intro h
      have : (totalVotes votes : ℚ) ≤ 10 * resignVotes votes := by exact_mod_cast h
      linarith
  · simp only [false_iff, not_and, not_le]
    intro htot
    have hrv : resignVotes votes = 0 := countOf_eq_zero_of_not_mem votes _ hmem
    rw [hrv]
    simp only [MIN_RESIGN_VOTES] at htot
    omega

theorem countOf_incrVote_self (votes : VoteRound) (k : VoteKey) :
    countOf (incrVote votes k) k = countOf votes k + 1 := by
  induction votes with
  | nil => simp [incrVote, countOf]
  | cons p rest ih =>
    by_cases h : p.1 = k
    · simp [incrVote, countOf, h]
    · simp [incrVote, countOf, h, ih]

theorem countOf_incrVote_other (votes : VoteRound) (k k2 : VoteKey) (h : k2 ≠ k) :
    countOf (incrVote votes k) k2 = countOf votes k2 := by
  induction votes with
  | nil => simp [incrVote, countOf, h, Ne.symm h]
  | cons p rest ih =>
    by_cases hp : p.1 = k
    · simp [incrVote, countOf, hp, h, Ne.symm h]
    · by_cases hp2 : p.1 = k2
      · simp [incrVote, countOf, hp, hp2, h, Ne.symm h]
      · simp [incrVote, countOf, hp, hp2, ih]

theorem countOf_eraseVote_self (votes : VoteRound) (k : VoteKey) :
    countOf (eraseVote votes k) k = 0 := by
  induction votes with
  | nil => rfl
  | cons p rest ih =>
    by_cases h : p.1 = k
    · simp [eraseVote, h, ih]
    · simp [eraseVote, countOf, h, ih]

theorem countOf_eraseVote_other (votes : VoteRound) (k k2 : VoteKey) (h : k2 ≠ k) :
    countOf (eraseVote votes k) k2 = countOf votes k2 := by
  induction votes with
  | nil => rfl
  | cons p rest ih =>
    by_cases hp : p.1 = k
    · simp [eraseVote, countOf, hp, ih, h, Ne.symm h]
    · simp [eraseVote, countOf, hp, ih]

theorem gameVotes_setGameVotes_self (m : List (String × VoteRound)) (g : String)
    (vr : VoteRound) : gameVotes (setGameVotes m g vr) g = vr := by
  induction m with
  | nil => simp [setGameVotes, gameVotes]
  | cons p rest ih =>
    by_cases h : p.1 = g
    · simp [setGameVotes, gameVotes, h]
    · simp [setGameVotes, gameVotes, h, ih]

theorem gameVotes_setGameVotes_other (m : List (String × VoteRound)) (g g2 : String)
    (vr : VoteRound) (h : g2 ≠ g) :
    gameVotes (setGameVotes m g vr) g2 = gameVotes m g2 := by
  induction m with
  | nil => simp [setGameVotes, gameVotes, h, Ne.symm h]
  | cons p rest ih =>
    by_cases hp : p.1 = g
    · simp [setGameVotes, gameVotes, hp, h, Ne.symm h]
    · by_cases hp2 : p.1 = g2
      · simp [setGameVotes, gameVotes, hp, hp2, h, Ne.symm h]
      · simp [setGameVotes, gameVotes, hp, hp2, ih]

theorem uavFind_uavSet_self (m : List (String × List String)) (g : String)
    (l : List String) : uavFind (uavSet m g l) g = some l := by
  induction m with
  | nil => simp [uavSet, uavFind]
  | cons p rest ih =>
    by_cases h : p.1 = g
    · simp [uavSet, uavFind, h]
    · simp [uavSet, uavFind, h, ih]

theorem get_has_after_set (st : HandlerState) (g u : String) :
    get_has_user_already_voted (set_user_as_already_voted st g u) g u = true := by
  unfold set_user_as_already_voted get_has_user_already_voted
  cases hf : uavFind st.users_already_voted g with
  | none => simp [uavFind_uavSet_self]
  | some l =>
    by_cases hu : u ∈ l
    · simp [hu, hf]
    · simp [hu, uavFind_uavSet_self]

theorem get_has_after_reset (st : HandlerState) (g u : String) :
    get_has_user_already_voted (reset_users_voted_moves st g) g u = false := by
  unfold reset_users_voted_moves get_has_user_already_voted
  cases hf : uavFind st.users_already_voted g with
  | none => simp [hf]
  | some l => simp [uavFind_uavSet_self]

theorem set_user_votes_eq (st : HandlerState) (g u : String) :
    (set_user_as_already_voted st g u).game_move_votes = st.game_move_votes := by
  unfold set_user_as_already_voted
  cases uavFind st.users_already_voted g with
  | none => rfl
  | some l =>
    by_cases hu : u ∈ l
    · simp [hu]
    · simp [hu]

theorem mem_ids_dictInsert (d : List (String × Game)) (k : String) (v : Game) (id : String) :
    id ∈ get_ongoing_game_ids (dictInsert d k v) ↔
      id ∈ get_ongoing_game_ids d ∨ id = k := by
  induction d with
  | nil => simp [dictInsert, get_ongoing_game_ids]
  | cons p rest ih =>
    by_cases h : p.1 = k
    · simp only [dictInsert, if_pos h, get_ongoing_game_ids, List.map_cons, List.mem_cons]
      rw [h]
      tauto
    · simp only [dictInsert, if_neg h, get_ongoing_game_ids, List.map_cons, List.mem_cons]
      rw [show (get_ongoing_game_ids (dictInsert rest k v) = (dictInsert rest k v).map Prod.fst) from rfl] at ih
      rw [show (get_ongoing_game_ids rest = rest.map Prod.fst) from rfl] at ih
      rw [ih]
      tauto

theorem nodup_ids_dictInsert (d : List (String × Game)) (k : String) (v : Game)
    (h : (get_ongoing_game_ids d).Nodup) :
    (get_ongoing_game_ids (dictInsert d k v)).Nodup := by
  induction d with
  | nil => simp [dictInsert, get_ongoing_game_ids]
  | cons p rest ih =>
    simp only [get_ongoing_game_ids, List.map_cons, List.nodup_cons] at h
    by_cases hp : p.1 = k
    · simp only [dictInsert, if_pos hp, get_ongoing_game_ids, List.map_cons, List.nodup_cons]
      exact ⟨hp ▸ h.1, h.2⟩
    · simp only [dictInsert, if_neg hp, get_ongoing_game_ids, List.map_cons, List.nodup_cons]
      refine ⟨?_, ih h.2⟩
      intro hmem
      rcases (mem_ids_dictInsert rest k v p.1).mp hmem with hm | he
      · exact h.1 hm
      · exact hp he

theorem mem_ids_foldl (gs : List Game) (d : List (String × Game)) (id : String) :
    id ∈ get_ongoing_game_ids (gs.foldl (fun d g => dictInsert d g.gameId g) d) ↔
      id ∈ get_ongoing_game_ids d ∨ id ∈ gs.map Game.gameId := by
  induction gs generalizing d with
  | nil => simp
  | cons g rest ih =>
    simp only [List.foldl_cons, List.map_cons, List.mem_cons]
    rw [ih, mem_ids_dictInsert]
    tauto

theorem nodup_ids_foldl (gs : List Game) (d : List (String × Game))
    (h : (get_ongoing_game_ids d).Nodup) :
    (get_ongoing_game_ids (gs.foldl (fun d g => dictInsert d g.gameId g) d)).Nodup := by
  induction gs generalizing d with
  | nil => exact h
  | cons g rest ih =>
    simp only [List.foldl_cons]
    exact ih _ (nodup_ids_dictInsert d g.gameId g h)

theorem resignCheck_ne_nil (votes : VoteRound) (h : resignCheck votes = true) :
    votes ≠ [] := by
  intro he
  rw [he] at h
  simp [resignCheck, keysOf] at h

theorem anarchy_submitted (mk : VoteKey → Bool) (votes : VoteRound)
    (hnd : (keysOf votes).Nodup) (hne : votes ≠ []) :
    (arbiterStep "anarchy" mk votes).submitted = firstNonResign votes := by
  cases votes with
  | nil => exact absurd rfl hne
  | cons p rest =>
    by_cases hp : p.1 = VoteKey.str RESIGN_MOVE_STR
    · cases rest with
      | nil => simp [arbiterStep, firstNonResign, keysOf, hp]
      | cons q rest2 =>
        have hq : q.1 ≠ VoteKey.str RESIGN_MOVE_STR := by
          simp only [keysOf, List.map_cons, List.nodup_cons, List.mem_cons] at hnd
          intro hh
          exact hnd.1 (Or.inl (hp.trans hh.symm))
        simp [arbiterStep, firstNonResign, keysOf, hp, hq]
    · simp [arbiterStep, firstNonResign, keysOf, hp]

theorem ratio_cond_iff (total rv : Nat) :
    (MIN_RESIGN_VOTES ≤ total ∧
        MIN_RESIGN_PERCENTAGE_VOTES ≤ (rv : ℚ) / (total : ℚ)) ↔
      (MIN_RESIGN_VOTES ≤ total ∧ total ≤ 10 * rv) := by
  refine and_congr_right fun htot => ?_
  have hpos : (0 : ℚ) < (total : ℚ) := by
    have : 0 < total := lt_of_lt_of_le one_pos htot
    exact_mod_cast this
  rw [MIN_RESIGN_PERCENTAGE_VOTES, div_le_div_iff₀ (by norm_num) hpos]
  rw [show ((1 : ℚ) * total = (total : ℚ)) from one_mul _]
  constructor
  · intro h
    exact_mod_cast (by linarith : (total : ℚ) ≤ 10 * rv)
  · intro h
    have : (total : ℚ) ≤ 10 * rv := by exact_mod_cast h
    linarith

theorem arbiterStep_eq_of_submitted (mode : String) (mk : VoteKey → Bool) (votes : VoteRound)
    (m : VoteKey) (h : (arbiterStep mode mk votes).submitted = some m) :
    arbiterStep mode mk votes =
      ⟨resignCheck votes, some m, if mk m then [] else eraseVote votes m, true⟩ := by
  cases votes with
  | nil => simp [arbiterStep] at h
  | cons p rest =>
    by_cases hmode : mode = "anarchy"
    · by_cases hp : p.1 = VoteKey.str RESIGN_MOVE_STR
      · cases rest with
        | nil => simp [arbiterStep, hmode, hp] at h
        | cons q rest2 =>
          have hm : q.1 = m := by simpa [arbiterStep, hmode, hp] using h
          subst hm
          simp [arbiterStep, hmode, hp]
      · have hm : p.1 = m := by simpa [arbiterStep, hmode, hp] using h
        subst hm
        simp [arbiterStep, hmode, hp]
    · simp [arbiterStep, hmode] at h

/-- C1: for every drained vote round, the arbiter resigns exactly when
`total >= 1` and `resignVotes/total >= 0.10` (resignVotes being 0 when the
token is absent); in particular counts resign:1, e2e4:9 trigger
resignation and counts resign:1, e2e4:10 do not. -/
theorem C1_resignation_rule (mode : String) (mk : VoteKey → Bool) (votes : VoteRound) :
    ((arbiterStep mode mk votes).resigned = true ↔
      MIN_RESIGN_VOTES ≤ totalVotes votes ∧
        MIN_RESIGN_PERCENTAGE_VOTES ≤ (resignVotes votes : ℚ) / (totalVotes votes : ℚ))
    ∧ (arbiterStep mode mk
        [(VoteKey.str "resign", 1), (VoteKey.str "e2e4", 9)]).resigned = true
    ∧ (arbiterStep mode mk
        [(VoteKey.str "resign", 1), (VoteKey.str "e2e4", 10)]).resigned = false := by
  refine ⟨?_, ?_, ?_⟩
  · rw [arbiterStep_resigned, resignCheck_iff]
    exact (ratio_cond_iff (totalVotes votes) (resignVotes votes)).symm
  · rw [arbiterStep_resigned]
    exact (resignCheck_iff _).mpr (by decide)
  · rw [arbiterStep_resigned]
    exact Bool.eq_false_iff.mpr fun h => absurd ((resignCheck_iff _).mp h) (by decide)

/-- C3: whenever the arbiter submits a candidate, the voted-users reset is
performed; on hosting-client success the round becomes empty, on failure
exactly the failed candidate is removed and all other tallies are
unchanged; and the reset leaves every user able to vote again. -/
theorem C3_submission_frame (mode : String) (mk : VoteKey → Bool) (votes : VoteRound)
    (m : VoteKey) (h : (arbiterStep mode mk votes).submitted = some m) :
    (arbiterStep mode mk votes).votersReset = true
    ∧ (mk m = true → (arbiterStep mode mk votes).votes = [])
    ∧ (mk m = false →
        countOf (arbiterStep mode mk votes).votes m = 0
        ∧ ∀ k, k ≠ m → countOf (arbiterStep mode mk votes).votes k = countOf votes k)
    ∧ (∀ st g u, get_has_user_already_voted (reset_users_voted_moves st g) g u = false) := by
  rw [arbiterStep_eq_of_submitted mode mk votes m h]
  refine ⟨rfl, ?_, ?_, fun st g u => get_has_after_reset st g u⟩
  · intro hmk
    simp [hmk]
  · intro hmk
    simp only [hmk, Bool.false_eq_true, if_false]
    exact ⟨countOf_eraseVote_self votes m,
      fun k hk => countOf_eraseVote_other votes m k hk⟩

theorem C3_submission_frame_witness :
    (arbiterStep "anarchy" (fun _ => false) [(VoteKey.str "e2e4", 2)]).votersReset = true :=
  (C3_submission_frame "anarchy" (fun _ => false) [(VoteKey.str "e2e4", 2)]
    (VoteKey.str "e2e4") rfl).1

/-- C4: in anarchy mode on a non-empty drained round, the submitted
candidate is the first key that is not the resignation token; when the
resignation token is the sole candidate nothing is submitted, the round
is left intact, and the voted-users reset is skipped. -/
theorem C4_anarchy_selection (mk : VoteKey → Bool) (votes : VoteRound)
    (hnd : (keysOf votes).Nodup) (hne : votes ≠ []) :
    (arbiterStep "anarchy" mk votes).submitted = firstNonResign votes
    ∧ (firstNonResign votes = none →
        (arbiterStep "anarchy" mk votes).submitted = none
        ∧ (arbiterStep "anarchy" mk votes).votes = votes
        ∧ (arbiterStep "anarchy" mk votes).votersReset = false) := by
  refine ⟨anarchy_submitted mk votes hnd hne, fun hfn => ?_⟩
  cases votes with
  | nil => exact absurd rfl hne
  | cons p rest =>
    have hall : ∀ x ∈ keysOf (p :: rest), x = VoteKey.str RESIGN_MOVE_STR := by
      simpa [firstNonResign] using hfn
    have hp : p.1 = VoteKey.str RESIGN_MOVE_STR := hall p.1 (by simp [keysOf])
    cases rest with
    | nil => simp [arbiterStep, hp]
    | cons q rest2 =>
      exfalso
      have hq : q.1 = VoteKey.str RESIGN_MOVE_STR := hall q.1 (by simp [keysOf])
      simp only [keysOf, List.map_cons, List.nodup_cons, List.mem_cons] at hnd
      exact hnd.1 (Or.inl (hp.trans hq.symm))

theorem C4_anarchy_selection_witness :
    (arbiterStep "anarchy" (fun _ => true)
        [(VoteKey.str "resign", 3), (VoteKey.str "e2e4", 1), (VoteKey.str "d2d4", 1)]).submitted
      = firstNonResign
        [(VoteKey.str "resign", 3), (VoteKey.str "e2e4", 1), (VoteKey.str "d2d4", 1)] :=
  (C4_anarchy_selection (fun _ => true)
    [(VoteKey.str "resign", 3), (VoteKey.str "e2e4", 1), (VoteKey.str "d2d4", 1)]
    (by decide) (by decide)).1

/-- C5 counterexample: with counts resign:1, e2e4:9 the resignation rule
fires, yet the very same cycle still submits the candidate e2e4 to the
hosting client — the cycle is not treated as completed. -/
theorem C5_counterexample :
    (arbiterStep "anarchy" (fun _ => true)
        [(VoteKey.str "resign", 1), (VoteKey.str "e2e4", 9)]).resigned = true
    ∧ (arbiterStep "anarchy" (fun _ => true)
        [(VoteKey.str "resign", 1), (VoteKey.str "e2e4", 9)]).submitted
      = some (VoteKey.str "e2e4") := by
  constructor
  · rw [arbiterStep_resigned]
    exact (resignCheck_iff _).mpr (by decide)
  · rfl

/-- C5 amended: when the resignation rule fires the game is resigned, but
the anarchy selection still runs in the same cycle and submits the first
non-resignation candidate whenever one exists. -/
theorem C5_resign_not_exclusive (mk : VoteKey → Bool) (votes : VoteRound)
    (hnd : (keysOf votes).Nodup)
    (hr : (arbiterStep "anarchy" mk votes).resigned = true) :
    (arbiterStep "anarchy" mk votes).submitted = firstNonResign votes := by
  have hne : votes ≠ [] :=
    resignCheck_ne_nil votes (by rw [← arbiterStep_resigned "anarchy" mk votes]; exact hr)
  exact anarchy_submitted mk votes hnd hne

theorem C5_resign_not_exclusive_witness :
    (arbiterStep "anarchy" (fun _ => true)
        [(VoteKey.str "resign", 1), (VoteKey.str "e2e4", 9)]).submitted
      = firstNonResign [(VoteKey.str "resign", 1), (VoteKey.str "e2e4", 9)] :=
  C5_resign_not_exclusive (fun _ => true)
    [(VoteKey.str "resign", 1), (VoteKey.str "e2e4", 9)] (by decide)
    (by rw [arbiterStep_resigned]; exact (resignCheck_iff _).mpr (by decide))


/-- C2 counterexample: user "u" has already voted this round for game
"g", yet their `!resign` command is recorded anyway — the resignation
tally changes from 0 to 1 instead of being dropped. -/
theorem C2_counterexample :
    get_has_user_already_voted sampleStateC2 "g" "u" = true
    ∧ resignCountIn sampleStateC2 "g" = 0
    ∧ resignCountIn (treat_command sampleStateC2 ("!resign", none) "u") "g" = 1 := by
  decide

/-- C2 amended: a move vote from a user who already voted this round is
dropped without changing any state, and a successful vote of either kind
marks the user as having voted; but a `!resign` command always records a
resignation vote (incrementing its tally by one), whether or not the user
has already voted this round. -/
theorem C2_one_vote_enforcement (boards : String → Option (String → Option String))
    (st : HandlerState) (g : String) (gs : List String) (u mv : String) (arg : Option String)
    (hg : st.game_ids = g :: gs) :
    (get_has_user_already_voted st g u = true → treat_move_msg boards st mv u = st)
    ∧ (resignCountIn (treat_command st ("!resign", arg) u) g = resignCountIn st g + 1
        ∧ get_has_user_already_voted (treat_command st ("!resign", arg) u) g u = true)
    ∧ ((vote_for_move boards st.game_move_votes g mv).1 = true →
        get_has_user_already_voted (treat_move_msg boards st mv u) g u = true) := by
  refine ⟨?_, ⟨?_, ?_⟩, ?_⟩
  · intro hv
    unfold treat_move_msg
    rw [hg]
    simp [hv]
  · unfold treat_command
    rw [if_pos rfl, hg]
    unfold resignCountIn
    rw [set_user_votes_eq]
    show countOf (gameVotes (vote_for_resign st.game_move_votes g) g) _ = _
    unfold vote_for_resign
    rw [gameVotes_setGameVotes_self, countOf_incrVote_self]
  · unfold treat_command
    rw [if_pos rfl, hg]
    exact get_has_after_set _ g u
  · intro hret
    unfold treat_move_msg
    rw [hg]
    by_cases hv : get_has_user_already_voted st g u
    · simp [hv]
    · simp only [hv, Bool.false_eq_true, if_false, hret, if_true]
      exact get_has_after_set _ g u

theorem C2_one_vote_enforcement_witness :
    resignCountIn (treat_command sampleStateC2 ("!resign", none) "u") "g"
        = resignCountIn sampleStateC2 "g" + 1
    ∧ get_has_user_already_voted (treat_command sampleStateC2 ("!resign", none) "u") "g" "u"
        = true :=
  (C2_one_vote_enforcement (fun _ => none) sampleStateC2 "g" [] "u" "e2e4" none rfl).2.1

/-- C6: a successful refresh replaces the cached set with exactly the
fetched games (duplicate-free ids, membership exactly the fetched ids;
refreshing with g1 and then with g2 leaves exactly g2); a failed fetch
leaves the previous snapshot untouched. -/
theorem C6_refresh_replaces (cur : List (String × Game)) (gs : List Game) (id : String) :
    ((get_ongoing_game_ids (update_ongoing_games (some gs) cur)).Nodup
      ∧ (id ∈ get_ongoing_game_ids (update_ongoing_games (some gs) cur) ↔
          id ∈ gs.map Game.gameId))
    ∧ update_ongoing_games none cur = cur
    ∧ get_ongoing_game_ids
        (update_ongoing_games (some [⟨"g2"⟩]) (update_ongoing_games (some [⟨"g1"⟩]) cur))
      = ["g2"] := by
  refine ⟨⟨?_, ?_⟩, rfl, rfl⟩
  · exact nodup_ids_foldl gs [] (by simp [get_ongoing_game_ids])
  · rw [show update_ongoing_games (some gs) cur
        = gs.foldl (fun d g => dictInsert d g.gameId g) [] from rfl]
    rw [mem_ids_foldl gs [] id]
    simp [get_ongoing_game_ids]

/-- C7 counterexample: the input "e2e4xx" is accepted (vote recorded)
although it is not a 4-character coordinate move and the board oracle
resolves nothing — only its first four characters match the coordinate
pattern, because `re.match` anchors at the start only. -/
theorem C7_counterexample :
    (vote_for_move (fun _ => some (fun _ => none)) [] "g" "e2e4xx").1 = true
    ∧ coordMove4 "e2e4xx" = false
    ∧ sanMatch "e2e4xx" = false := by
  decide

/-- C7 amended: `vote_for_move` succeeds and increments exactly one
candidate iff the text's first four characters match
`[a-h][1-8][a-h][1-8]` (longer texts with such a four-character head are
accepted and tallied verbatim) or the text full-matches the
abbreviated-move pattern and resolves against the game's current
position; otherwise it returns false and the vote map is unchanged. -/
theorem C7_validation (boards : String → Option (String → Option String))
    (m : List (String × VoteRound)) (g mv : String) :
    ((vote_for_move boards m g mv).1 = true ↔
      get_is_uci mv = true
      ∨ (sanMatch mv = true ∧ ∃ parse, boards g = some parse ∧ (parse mv).isSome = true))
    ∧ ((vote_for_move boards m g mv).1 = false → (vote_for_move boards m g mv).2 = m)
    ∧ ((vote_for_move boards m g mv).1 = true →
        ∃ k, countOf (gameVotes (vote_for_move boards m g mv).2 g) k
              = countOf (gameVotes m g) k + 1
          ∧ (∀ k2, k2 ≠ k →
              countOf (gameVotes (vote_for_move boards m g mv).2 g) k2
                = countOf (gameVotes m g) k2)
          ∧ ∀ g2, g2 ≠ g →
              gameVotes (vote_for_move boards m g mv).2 g2 = gameVotes m g2) := by
  by_cases hfmt : get_is_move_fmt_valid mv = true
  · by_cases huci : get_is_uci mv = true
    · have hv : vote_for_move boards m g mv
          = (true, setGameVotes m g (incrVote (gameVotes m g) (VoteKey.str mv))) := by
        simp [vote_for_move, hfmt, huci]
      rw [hv]
      refine ⟨by simp [huci], by simp, fun _ => ?_⟩
      refine ⟨VoteKey.str mv, ?_, ?_, ?_⟩
      · rw [gameVotes_setGameVotes_self, countOf_incrVote_self]
      · intro k2 hk2
        rw [gameVotes_setGameVotes_self, countOf_incrVote_other _ _ _ hk2]
      · intro g2 hg2
        rw [gameVotes_setGameVotes_other _ _ _ _ hg2]
    · have hsan : sanMatch mv = true := by
        rcases Bool.or_eq_true _ _ |>.mp (by
          simpa [get_is_move_fmt_valid] using hfmt) with h | h
        · exact absurd h huci
        · exact h
      cases hb : boards g with
      | none =>
        have hv : vote_for_move boards m g mv = (false, m) := by
          simp [vote_for_move, hfmt, huci, hb]
        rw [hv]
        refine ⟨?_, fun _ => rfl, by simp⟩
        simp [huci]
      | some parse =>
        cases hp : parse mv with
        | none =>
          have hv : vote_for_move boards m g mv = (false, m) := by
            simp [vote_for_move, hfmt, huci, hb, hp]
          rw [hv]
          refine ⟨?_, fun _ => rfl, by simp⟩
          simp [huci, hp]
        | some u =>
          have hv : vote_for_move boards m g mv
              = (true, setGameVotes m g (incrVote (gameVotes m g) (VoteKey.moveObj u))) := by
            simp [vote_for_move, hfmt, huci, hb, hp]
          rw [hv]
          refine ⟨?_, by simp, fun _ => ?_⟩
          · simp only [true_iff]
            exact Or.inr ⟨hsan, parse, rfl, by rw [hp]; rfl⟩
          · refine ⟨VoteKey.moveObj u, ?_, ?_, ?_⟩
            · rw [gameVotes_setGameVotes_self, countOf_incrVote_self]
            · intro k2 hk2
              rw [gameVotes_setGameVotes_self, countOf_incrVote_other _ _ _ hk2]
            · intro g2 hg2
              rw [gameVotes_setGameVotes_other _ _ _ _ hg2]
  · have huci : get_is_uci mv = false := by
      cases h : get_is_uci mv
      · rfl
      · exact absurd (by simp [get_is_move_fmt_valid, h]) hfmt
    have hsan : sanMatch mv = false := by
      cases h : sanMatch mv
      · rfl
      · exact absurd (by simp [get_is_move_fmt_valid, h]) hfmt
    have hv : vote_for_move boards m g mv = (false, m) := by
      have : (!get_is_move_fmt_valid mv) = true := by
        simp [Bool.eq_false_iff.mpr hfmt]
      simp [vote_for_move, this]
    rw [hv]
    refine ⟨?_, fun _ => rfl, by simp⟩
    simp [huci, hsan]

theorem C7_validation_witness :
    (vote_for_move (fun _ => none) [] "g" "zzz").2 = [] :=
  (C7_validation (fun _ => none) [] "g" "zzz").2.1 (by decide)

theorem validate_iff (fetch : Option (List Game)) (cur : List (String × Game))
    (ev : ChallengeEvent) (h : ev.etype = "challenge") :
    validate_challenge_event fetch cur ev = true ↔
      (update_ongoing_games fetch cur).length = 0 ∧ ev.rated = false := by
  simp [validate_challenge_event, h, Bool.and_eq_true, decide_eq_true_iff,
    Bool.not_eq_true']

/-- C8: an incoming challenge event is accepted iff the freshly refreshed
registry holds zero games and the challenge is unrated, and declined
otherwise; in particular zero games + unrated accepts, one game + unrated
declines, zero games + rated declines. -/
theorem C8_gatekeeper (fetch : Option (List Game)) (cur : List (String × Game))
    (ev : ChallengeEvent) (h : ev.etype = "challenge") :
    (treat_incoming_event fetch cur ev = some ChallengeDecision.accept ↔
      (update_ongoing_games fetch cur).length = 0 ∧ ev.rated = false)
    ∧ (treat_incoming_event fetch cur ev = some ChallengeDecision.decline ↔
        ¬((update_ongoing_games fetch cur).length = 0 ∧ ev.rated = false))
    ∧ treat_incoming_event (some []) cur ⟨"challenge", false⟩
        = some ChallengeDecision.accept
    ∧ treat_incoming_event (some [⟨"g1"⟩]) cur ⟨"challenge", false⟩
        = some ChallengeDecision.decline
    ∧ treat_incoming_event (some []) cur ⟨"challenge", true⟩
        = some ChallengeDecision.decline := by
  refine ⟨?_, ?_, rfl, rfl, rfl⟩
  · rw [← validate_iff fetch cur ev h]
    cases hval : validate_challenge_event fetch cur ev
    · simp [treat_incoming_event, h, hval]
    · simp [treat_incoming_event, h, hval]
  · rw [← validate_iff fetch cur ev h]
    cases hval : validate_challenge_event fetch cur ev
    · simp [treat_incoming_event, h, hval]
    · simp [treat_incoming_event, h, hval]

theorem C8_gatekeeper_witness :
    treat_incoming_event (some []) [] ⟨"challenge", false⟩
      = some ChallengeDecision.accept :=
  (C8_gatekeeper (some []) [] ⟨"challenge", false⟩ rfl).2.2.1



/-- C9 counterexample: voting "e4" (abbreviated) and then "e2e4"
(coordinate) for the same game yields TWO candidates with one vote each —
the move object stored by the abbreviated vote and the raw coordinate
string — instead of a single candidate with two votes. -/
theorem C9_counterexample :
    (vote_for_move sanBoards [] "g" "e4").1 = true
    ∧ (vote_for_move sanBoards ((vote_for_move sanBoards [] "g" "e4").2) "g" "e2e4").1 = true
    ∧ (vote_for_move sanBoards ((vote_for_move sanBoards [] "g" "e4").2) "g" "e2e4").2
        = [("g", [(VoteKey.moveObj "e2e4", 1), (VoteKey.str "e2e4", 1)])] := by
  decide

/-- C9 amended: a successful abbreviated-text vote increments the
candidate keyed by the parsed move object (which carries the coordinate
form of the move), and that key differs from every raw string key — so
abbreviated and coordinate votes for the same move tally separately. -/
theorem C9_san_key_is_move_object (boards : String → Option (String → Option String))
    (m : List (String × VoteRound)) (g mv : String)
    (parse : String → Option String) (u : String)
    (hb : boards g = some parse) (huci : get_is_uci mv = false)
    (hsan : sanMatch mv = true) (hp : parse mv = some u) :
    (vote_for_move boards m g mv).1 = true
    ∧ gameVotes (vote_for_move boards m g mv).2 g
        = incrVote (gameVotes m g) (VoteKey.moveObj u)
    ∧ ∀ s, VoteKey.moveObj u ≠ VoteKey.str s := by
  have hfmt : get_is_move_fmt_valid mv = true := by
    simp [get_is_move_fmt_valid, hsan]
  have hv : vote_for_move boards m g mv
      = (true, setGameVotes m g (incrVote (gameVotes m g) (VoteKey.moveObj u))) := by
    simp [vote_for_move, hfmt, huci, hb, hp]
  rw [hv]
  exact ⟨rfl, gameVotes_setGameVotes_self m g _, fun s h => VoteKey.noConfusion h⟩

theorem C9_san_key_is_move_object_witness :
    (vote_for_move sanBoards [] "g" "e4").1 = true
    ∧ gameVotes (vote_for_move sanBoards [] "g" "e4").2 "g"
        = incrVote (gameVotes [] "g") (VoteKey.moveObj "e2e4")
    ∧ ∀ s, VoteKey.moveObj "e2e4" ≠ VoteKey.str s :=
  C9_san_key_is_move_object sanBoards [] "g" "e4" parseOracleE4 "e2e4"
    rfl (by decide) (by decide) rfl

theorem get_command_from_chars_ok (c : Char) (cs : List Char) :
    ∃ o, get_command_from_chars (c :: cs) = Except.ok o := by
  by_cases hc : c ≠ '!'
  · exact ⟨none, by simp [get_command_from_chars, hc]⟩
  · cases hs : splitOnSpace (c :: cs) with
    | nil => exact ⟨none, by simp [get_command_from_chars, hc, hs]⟩
    | cons w ws =>
      cases hf : MSG_COMMANDS.find? (fun cmd => decide (String.mk w = cmd)) with
      | none => exact ⟨none, by simp [get_command_from_chars, hc, hs, hf]⟩
      | some cmd =>
        cases ws with
        | nil => exact ⟨some (cmd, none), by simp [get_command_from_chars, hc, hs, hf]⟩
        | cons a rest =>
          exact ⟨some (cmd, some (String.mk a)), by simp [get_command_from_chars, hc, hs, hf]⟩

/-- C10: processing the empty chat line raises an uncaught IndexError
(killing the chat-ingest worker), while every non-empty line is processed
to completion without an exception. -/
theorem C10_empty_message_crashes (boards : String → Option (String → Option String))
    (st : HandlerState) (u : String) :
    process_message boards st u "" = Except.error "IndexError"
    ∧ ∀ c cs, ∃ st2, process_message boards st u (String.mk (c :: cs)) = Except.ok st2 := by
  refine ⟨rfl, fun c cs => ?_⟩
  obtain ⟨o, ho⟩ := get_command_from_chars_ok c cs
  have ho2 : get_command_from_msg (String.mk (c :: cs)) = Except.ok o := ho
  cases o with
  | some cmd =>
    exact ⟨treat_command st cmd u, by simp [process_message, ho2]⟩
  | none =>
    cases hm : get_move_from_msg (String.mk (c :: cs)) with
    | none => exact ⟨st, by simp [process_message, ho2, hm]⟩
    | some mv => exact ⟨treat_move_msg boards st mv u, by simp [process_message, ho2, hm]⟩

end TPC
